import Mathlib

/-!
Shallow embedding of the `terminator` repository (main.go).

The repository is an "OOM terminator": an infinite polling loop
(`Terminate`, main.go lines 132-199) that resolves a candidate pod set
(`getPods`, lines 201-260), samples each Running pod's memory usage
against its first container's declared limit, tracks consecutive
over-threshold observations in an in-memory map `podsToKill`, kills
(deletes) a pod once its record's count reaches `killAfter`, and expires
stale records whose age exceeds `killSleep * (count + 1)`.

All Kubernetes API calls (pod listing, service/deployment lookup, pod
metrics, pod deletion) are modelled as environments supplied to the pure
functions.  Real time is modelled by an explicit `now` timestamp per loop
iteration (an `Int`, in the same abstract unit as the `killSleep`
duration); the passage of time within a single iteration is not modelled,
as no verified property depends on it.  The float64 percentage comparison
of line 163/166 is modelled exactly as a rational comparison for a
nonzero limit, and mirrors the IEEE semantics of a zero divisor
(positive/0 = +Inf which compares `>=` anything; 0/0 = NaN whose every
comparison is false).
-/

namespace Terminator

/-- a pod as the loop sees it: identity, phase, and the declared memory
limit in bytes of each of its containers.  `Resources.Limits.Memory()`
on a container with no declared memory limit yields the zero quantity,
so "no limit declared" is the value 0. -/
structure Pod where
  name : String
  ns : String
  phase : String
  containerLimits : List Nat
  deriving DecidableEq, Repr

/-- result of the pod-metrics `Get` call of line 149: not-found (skipped,
line 151-153), any other error (fatal, line 155), or the per-container
memory usage values in bytes (`Usage.Memory().Value()`). -/
inductive MetricsResult where
  | notFound
  | err
  | ok (usages : List Nat)
  deriving DecidableEq, Repr

/-- errors escaping the modelled functions.  `apiErr` stands for any Go
error value returned to the caller; `nilPanic` stands for a nil-pointer
dereference (a Go panic, i.e. a crash, not a returned error). -/
inductive GoErr where
  | apiErr
  | nilPanic
  deriving DecidableEq, Repr

/-- the `overLimit` record of main.go lines 127-130: creation timestamp
and consecutive over-threshold count. -/
structure OverLimit where
  «at» : Int
  count : Int
  deriving DecidableEq, Repr

/-- the `podsToKill` map (line 133), keyed by pod name.  Go map semantics
(one binding per key) are preserved by `setPod`/`delPod`. -/
abbrev Tracker := List (String × OverLimit)

/-- map read `podsToKill[name]`. -/
def findPod : Tracker → String → Option OverLimit
  | [], _ => none
  | (k, v) :: rest, name => if k = name then some v else findPod rest name

/-- map write `podsToKill[name] = v` (replaces an existing binding). -/
def setPod : Tracker → String → OverLimit → Tracker
  | [], name, v => [(name, v)]
  | (k, w) :: rest, name, v =>
    if k = name then (k, v) :: rest else (k, w) :: setPod rest name v

/-- map delete `delete(podsToKill, name)`. -/
def delPod : Tracker → String → Tracker
  | [], _ => []
  | (k, w) :: rest, name =>
    if k = name then delPod rest name else (k, w) :: delPod rest name

/-- lines 167-171: if a record exists its count is incremented in place
(pointer mutation), otherwise a record with count 0 and `at = time.Now()`
is created.  Returns the updated map together with the record that the
subsequent `podsToKill[pod.Name].count >= killAfter` read (line 174)
observes. -/
def observeOver (t : Tracker) (name : String) (now : Int) : Tracker × OverLimit :=
  match findPod t name with
  | some over =>
    let o : OverLimit := { over with count := over.count + 1 }
    (setPod t name o, o)
  | none =>
    let o : OverLimit := { «at» := now, count := 0 }
    (setPod t name o, o)

/-- the comparison `float64(using.Value())/float64(limit.Value())*100 >=
float64(memoryLimit)` of lines 163/166.  For a nonzero limit this is the
exact rational comparison `usage*100 >= memoryLimit*limit` (IEEE rounding
at the exact boundary is not modelled).  For a zero limit it mirrors
IEEE float64: positive/0 = +Inf, and +Inf >= m for every finite m, while
0/0 = NaN and NaN >= m is false. -/
def overLimitCheck (usage limit : Nat) (memoryLimit : Int) : Bool :=
  if limit = 0 then
    decide (0 < usage)
  else
    decide ((usage : Int) * 100 ≥ memoryLimit * (limit : Int))

/-- the expiry sweep of lines 189-195: a record is removed exactly when
`time.Since(over.at) > killSleep*time.Duration(over.count+1)`, i.e. kept
exactly when `now - at ≤ killSleep * (count + 1)`.  Go map iteration
order is irrelevant since each record is tested independently. -/
def sweep (killSleep now : Int) (t : Tracker) : Tracker :=
  t.filter (fun p => decide (now - p.2.«at» ≤ killSleep * (p.2.count + 1)))

/-- the configuration of one `Terminate` run (its int/bool arguments). -/
structure Config where
  memoryLimit : Int
  killAfter : Int
  killSleep : Int
  dryRun : Bool
  deriving DecidableEq, Repr

/-- observable state of one loop iteration: the tracker map, the `killed`
flag of line 135, the pods whose metrics were fetched (`sampled`), the
kill decisions taken (`kills`, line 174-175), the actual pod-delete
requests issued (`deletes`, line 177; empty in dry-run), and a pending
fatal error (`err`), which in the source returns from `Terminate`. -/
structure LoopState where
  tracker : Tracker
  killed : Bool
  sampled : List String
  kills : List String
  deletes : List String
  err : Option GoErr
  deriving DecidableEq, Repr

/-- the environment and timestamp of one loop iteration: the resolved
candidate pod list (output of `getPods`), the metrics lookup keyed by pod
name, the outcome of a pod-delete request, and the current time. -/
structure IterInput where
  pods : List Pod
  metrics : String → MetricsResult
  deleteFails : String → Bool
  now : Int

/-- loop state at the top of an iteration (line 135): `killed := false`,
no samples, kills, deletes or error yet. -/
def initState (t : Tracker) : LoopState :=
  { tracker := t, killed := false, sampled := [], kills := [], deletes := [], err := none }

/-- the body of the per-pod loop of lines 143-187 for a single pod.
Skips (line 144) pods with no containers, pods not Running, and every pod
after a kill in the same iteration; fetches metrics (line 149); compares
the first metrics container's usage against the first spec container's
limit (lines 148, 162-166); on an over-threshold reading updates the
tracker (lines 167-171) and, when the stored count has reached
`killAfter`, issues the kill (lines 174-185): delete request unless
dry-run, record removal and `killed := true` — unless the delete request
itself fails, in which case the error is returned with the record left in
place (line 178-180). -/
def step (cfg : Config) (metrics : String → MetricsResult)
    (deleteFails : String → Bool) (now : Int) (st : LoopState) (pod : Pod) : LoopState :=
  if st.err.isSome then st
  else if pod.containerLimits.length = 0 ∨ pod.phase ≠ "Running" ∨ st.killed then st
  else
    let limit := pod.containerLimits.headD 0
    match metrics pod.name with
    | .notFound => { st with sampled := st.sampled ++ [pod.name] }
    | .err => { st with sampled := st.sampled ++ [pod.name], err := some .apiErr }
    | .ok usages =>
      let st1 := { st with sampled := st.sampled ++ [pod.name] }
      if usages.length = 0 then st1
      else
        let usage := usages.headD 0
        if overLimitCheck usage limit cfg.memoryLimit then
          let p := observeOver st1.tracker pod.name now
          if p.2.count ≥ cfg.killAfter then
            if cfg.dryRun then
              { st1 with tracker := delPod p.1 pod.name,
                         kills := st1.kills ++ [pod.name], killed := true }
            else if deleteFails pod.name then
              { st1 with tracker := p.1, kills := st1.kills ++ [pod.name],
                         deletes := st1.deletes ++ [pod.name], err := some .apiErr }
            else
              { st1 with tracker := delPod p.1 pod.name,
                         kills := st1.kills ++ [pod.name],
                         deletes := st1.deletes ++ [pod.name], killed := true }
          else
            { st1 with tracker := p.1 }
        else st1

/-- the per-pod loop of lines 143-187 over the whole candidate list. -/
def processPods (cfg : Config) (metrics : String → MetricsResult)
    (deleteFails : String → Bool) (now : Int) : List Pod → LoopState → LoopState
  | [], st => st
  | pod :: rest, st =>
    processPods cfg metrics deleteFails now rest (step cfg metrics deleteFails now st pod)

/-- end of one iteration: when the pod scan ended without a fatal error,
the expiry sweep of lines 189-195 is applied to the tracker (a fatal
error has already returned from `Terminate`, before the sweep). -/
def postSweep (cfg : Config) (now : Int) (st : LoopState) : LoopState :=
  if st.err.isSome then st
  else { st with tracker := sweep cfg.killSleep now st.tracker }

/-- one full loop iteration: the pod scan followed by the expiry sweep. -/
def runIter (cfg : Config) (inp : IterInput) (t : Tracker) : LoopState :=
  postSweep cfg inp.now
    (processPods cfg inp.metrics inp.deleteFails inp.now inp.pods (initState t))

/-- a finite prefix of the infinite `for` loop of line 134: one
`LoopState` per executed iteration, threading the tracker, stopping after
an iteration whose fatal error would make `Terminate` return. -/
def runTrace (cfg : Config) : List IterInput → Tracker → List LoopState
  | [], _ => []
  | inp :: rest, t =>
    let st := runIter cfg inp t
    if st.err.isSome then [st]
    else st :: runTrace cfg rest st.tracker

/-- forgets the delete requests of a loop state (what dry-run suppresses). -/
def stripDeletes (st : LoopState) : LoopState :=
  { st with deletes := [] }

/-- a Running pod with a single container whose memory limit is `limit`. -/
def overPod (name : String) (limit : Nat) : Pod :=
  { name := name, ns := "", phase := "Running", containerLimits := [limit] }

/-- an iteration in which the single candidate pod reports `usage` bytes
and every delete request succeeds. -/
def consecInput (name : String) (usage limit : Nat) (now : Int) : IterInput :=
  { pods := [overPod name limit], metrics := fun _ => .ok [usage],
    deleteFails := fun _ => false, now := now }

/-- a trace of `k` consecutive iterations observing the same pod, `gap` time units
apart, starting at time `t0`. -/
def consecTrace (name : String) (usage limit : Nat) (t0 gap : Int) : Nat → List IterInput
  | 0 => []
  | k + 1 => consecInput name usage limit t0 :: consecTrace name usage limit (t0 + gap) gap k

/-- one iteration whose candidate list contains the same pod `m` times
(as produced by `getPods` when several filters match the same pod). -/
def dupInput (name : String) (usage limit : Nat) (m : Nat) (now : Int) : IterInput :=
  { pods := List.replicate m (overPod name limit), metrics := fun _ => .ok [usage],
    deleteFails := fun _ => false, now := now }

/-- a service as resolution uses it: its pod label selector
(`service.Spec.Selector`, line 218). -/
structure Service where
  selector : List (String × String)
  deriving DecidableEq, Repr

/-- a deployment as resolution uses it: its selector match-labels
(line 238) and its desired replica count, a *pointer* in the Go API
(`deployment.Spec.Replicas`, dereferenced without a guard on line 251),
hence an `Option`. -/
structure Deployment where
  matchLabels : List (String × String)
  replicas : Option Int
  deriving DecidableEq, Repr

/-- result of a `Get` lookup: not-found (skipped, lines 211-214 and
231-234), any other API error (fatal), or the object. -/
inductive Lookup (α : Type) where
  | notFound
  | apiError
  | found (val : α)
  deriving DecidableEq

/-- the cluster as `getPods` queries it.  `allPods` is the result of the
unfiltered bounded list of line 203 (the `Limit: 10` page size is part of
the environment's answer, not modelled structurally); `podsBySelector` is
the label-selector pod list of lines 219/239, `none` meaning the list
call failed. -/
structure ResolveEnv where
  allPods : Except GoErr (List Pod)
  services : String → Lookup Service
  deployments : String → Lookup Deployment
  podsBySelector : List (String × String) → Option (List Pod)

/-- the service loop of lines 208-226: not-found services are skipped,
any other lookup or list error aborts, matching pods are appended in
order. -/
def resolveServices (env : ResolveEnv) : List String → Except GoErr (List Pod)
  | [] => .ok []
  | name :: rest =>
    match env.services name with
    | .notFound => resolveServices env rest
    | .apiError => .error .apiErr
    | .found svc =>
      match env.podsBySelector svc.selector with
      | none => .error .apiErr
      | some svcPods =>
        match resolveServices env rest with
        | .error e => .error e
        | .ok restPods => .ok (svcPods ++ restPods)

/-- the deployment loop of lines 228-257: not-found deployments are
skipped, other lookup/list errors abort, the Running pods are counted
(lines 244-249), `*deployment.Spec.Replicas` is dereferenced on line 251
— a nil pointer is a panic, modelled as `.error .nilPanic` — and the
deployment's pods are appended only when `running >= desired`. -/
def resolveDeployments (env : ResolveEnv) : List String → Except GoErr (List Pod)
  | [] => .ok []
  | name :: rest =>
    match env.deployments name with
    | .notFound => resolveDeployments env rest
    | .apiError => .error .apiErr
    | .found dep =>
      match env.podsBySelector dep.matchLabels with
      | none => .error .apiErr
      | some depPods =>
        let running := (depPods.filter (fun p => p.phase == "Running")).length
        match dep.replicas with
        | none => .error .nilPanic
        | some r =>
          if (running : Int) ≥ r then
            match resolveDeployments env rest with
            | .error e => .error e
            | .ok restPods => .ok (depPods ++ restPods)
          else resolveDeployments env rest

/-- the `getPods` function of lines 201-260: with no filters, the bounded unfiltered
page; otherwise the concatenation of the service and deployment
resolutions, either loop's error aborting the whole resolution. -/
def getPods (env : ResolveEnv) (serviceNames deploymentNames : List String) :
    Except GoErr (List Pod) :=
  if serviceNames.isEmpty && deploymentNames.isEmpty then
    env.allPods
  else
    match resolveServices env serviceNames with
    | .error e => .error e
    | .ok svcPods =>
      match resolveDeployments env deploymentNames with
      | .error e => .error e
      | .ok depPods => .ok (svcPods ++ depPods)

/-! ### Basic facts about the per-pod scan -/

/-- a pod reached after a kill in the same iteration is left untouched:
the guard of line 144 skips it before any metrics fetch. -/
theorem step_skip_killed (cfg : Config) (metrics : String → MetricsResult)
    (deleteFails : String → Bool) (now : Int) (st : LoopState) (pod : Pod)
    (hk : st.killed = true) :
    step cfg metrics deleteFails now st pod = st := by
  unfold step
  by_cases he : st.err.isSome <;> simp [he, hk]

/-- once a fatal error is pending, the scan changes nothing (the source
has already returned). -/
theorem step_skip_err (cfg : Config) (metrics : String → MetricsResult)
    (deleteFails : String → Bool) (now : Int) (st : LoopState) (pod : Pod)
    (he : st.err.isSome = true) :
    step cfg metrics deleteFails now st pod = st := by
  unfold step
  simp [he]

/-- after a kill, the rest of the candidate list is skipped entirely. -/
theorem processPods_skip_killed (cfg : Config) (metrics : String → MetricsResult)
    (deleteFails : String → Bool) (now : Int) (pods : List Pod) (st : LoopState)
    (hk : st.killed = true) :
    processPods cfg metrics deleteFails now pods st = st := by
  induction pods with
  | nil => rfl
  | cons pod rest ih =>
    simp only [processPods, step_skip_killed cfg metrics deleteFails now st pod hk]
    exact ih

/-- after a fatal error, the rest of the candidate list is skipped. -/
theorem processPods_skip_err (cfg : Config) (metrics : String → MetricsResult)
    (deleteFails : String → Bool) (now : Int) (pods : List Pod) (st : LoopState)
    (he : st.err.isSome = true) :
    processPods cfg metrics deleteFails now pods st = st := by
  induction pods with
  | nil => rfl
  | cons pod rest ih =>
    simp only [processPods, step_skip_err cfg metrics deleteFails now st pod he]
    exact ih

/-- bound on further kill decisions: the kill count plus one pending
"kill budget" (available only while no kill and no error happened yet)
never increases across one pod. -/
def killMeasure (st : LoopState) : Nat :=
  st.kills.length + (if st.killed = true ∨ st.err.isSome = true then 0 else 1)

set_option maxHeartbeats 1000000 in
theorem step_killMeasure (cfg : Config) (metrics : String → MetricsResult)
    (deleteFails : String → Bool) (now : Int) (st : LoopState) (pod : Pod) :
    killMeasure (step cfg metrics deleteFails now st pod) ≤ killMeasure st := by
  unfold step killMeasure
  by_cases he : st.err.isSome = true
  · simp [he]
  by_cases hg : pod.containerLimits = [] ∨ ¬pod.phase = "Running" ∨ st.killed = true
  · simp [he, hg]
  rcases not_or.mp hg with ⟨hc, hg2⟩
  rcases not_or.mp hg2 with ⟨hp, hk0⟩
  have hp' : pod.phase = "Running" := not_not.mp hp
  have hk : st.killed = false := by simpa using hk0
  have he' : st.err.isSome = false := by simpa using he
  simp only [he, hg, if_false]
  rcases hm : metrics pod.name with _ | _ | usages
  · simp [hm, hc, hp', he', hk]
  · simp [hm, hc, hp', he', hk]
  · simp only [hm, hc, hp']
    split_ifs <;> simp_all

theorem processPods_killMeasure (cfg : Config) (metrics : String → MetricsResult)
    (deleteFails : String → Bool) (now : Int) (pods : List Pod) (st : LoopState) :
    killMeasure (processPods cfg metrics deleteFails now pods st) ≤ killMeasure st := by
  induction pods generalizing st with
  | nil => exact le_refl _
  | cons pod rest ih =>
    exact le_trans (ih (step cfg metrics deleteFails now st pod))
      (step_killMeasure cfg metrics deleteFails now st pod)

/-- the sweep and the error return of `runIter` never touch the kill
list produced by the pod scan. -/
theorem runIter_kills (cfg : Config) (inp : IterInput) (t : Tracker) :
    (runIter cfg inp t).kills =
      (processPods cfg inp.metrics inp.deleteFails inp.now inp.pods (initState t)).kills := by
  unfold runIter postSweep
  split <;> rfl

/-- C2: at most one pod is killed per loop iteration; after a kill
decision, no further pod in that iteration's candidate list is sampled
or killed — the scan leaves the state entirely unchanged from then on. -/
theorem one_kill_per_iteration (cfg : Config) (inp : IterInput) (t : Tracker) :
    (runIter cfg inp t).kills.length ≤ 1 ∧
      ∀ (metrics : String → MetricsResult) (deleteFails : String → Bool)
        (now : Int) (pods : List Pod) (st : LoopState), st.killed = true →
          processPods cfg metrics deleteFails now pods st = st := by
  constructor
  · rw [runIter_kills]
    have h1 := processPods_killMeasure cfg inp.metrics inp.deleteFails inp.now inp.pods
      (initState t)
    have h2 : killMeasure (initState t) = 1 := by simp [killMeasure, initState]
    have h3 : (processPods cfg inp.metrics inp.deleteFails inp.now inp.pods
        (initState t)).kills.length ≤ killMeasure (processPods cfg inp.metrics
        inp.deleteFails inp.now inp.pods (initState t)) := by
      unfold killMeasure
      split <;> omega
    omega
  · intro metrics deleteFails now pods st hk
    exact processPods_skip_killed cfg metrics deleteFails now pods st hk

/-- C2 witness: a concrete iteration with two over-threshold pods kills
only the first, and a scan entered with the killed flag set is the
identity on a concrete state. -/
theorem one_kill_per_iteration_witness :
    (runIter ⟨50, 0, 1000, false⟩
        { pods := [overPod "a" 1, overPod "b" 1], metrics := fun _ => .ok [1],
          deleteFails := fun _ => false, now := 0 } []).kills.length ≤ 1 ∧
      processPods ⟨50, 0, 1000, false⟩ (fun _ => .ok [1]) (fun _ => false) 0
          [overPod "b" 1]
          { tracker := [], killed := true, sampled := ["a"], kills := ["a"],
            deletes := ["a"], err := none } =
        { tracker := [], killed := true, sampled := ["a"], kills := ["a"],
          deletes := ["a"], err := none } := by
  refine ⟨(one_kill_per_iteration ⟨50, 0, 1000, false⟩ _ []).1, ?_⟩
  exact (one_kill_per_iteration ⟨50, 0, 1000, false⟩
    { pods := [], metrics := fun _ => .ok [1], deleteFails := fun _ => false, now := 0 }
    []).2 (fun _ => .ok [1]) (fun _ => false) 0 [overPod "b" 1] _ rfl

/-! ### The expiry sweep -/

/-- C3: the per-iteration expiry sweep keeps a tracked record exactly
when its age since `at` is at most `killSleep * (count + 1)`, and
removes every record whose age strictly exceeds that decaying window. -/
theorem expiry_sweep_exact (killSleep now : Int) (t : Tracker) (n : String) (o : OverLimit) :
    ((n, o) ∈ sweep killSleep now t ↔
        (n, o) ∈ t ∧ now - o.«at» ≤ killSleep * (o.count + 1)) ∧
      (now - o.«at» > killSleep * (o.count + 1) → (n, o) ∉ sweep killSleep now t) := by
  constructor
  · simp [sweep, List.mem_filter]
  · intro hage hmem
    have := ((by simp [sweep, List.mem_filter] :
      (n, o) ∈ sweep killSleep now t ↔
        (n, o) ∈ t ∧ now - o.«at» ≤ killSleep * (o.count + 1))).mp hmem
    omega

/-- C3 witness: a fresh record is kept by a sweep within its window,
and a record 100 time units old with window 5 is removed. -/
theorem expiry_sweep_witness :
    (("p", (⟨0, 0⟩ : OverLimit)) ∈ sweep 5 0 [("p", (⟨0, 0⟩ : OverLimit))] ↔
        ("p", (⟨0, 0⟩ : OverLimit)) ∈ [("p", (⟨0, 0⟩ : OverLimit))] ∧
          (0 : Int) - (⟨0, 0⟩ : OverLimit).«at» ≤
            5 * ((⟨0, 0⟩ : OverLimit).count + 1)) ∧
      ("q", (⟨0, 0⟩ : OverLimit)) ∉ sweep 5 100 [("q", (⟨0, 0⟩ : OverLimit))] :=
  ⟨(expiry_sweep_exact 5 0 [("p", ⟨0, 0⟩)] "p" ⟨0, 0⟩).1,
    (expiry_sweep_exact 5 100 [("q", ⟨0, 0⟩)] "q" ⟨0, 0⟩).2 (by norm_num)⟩

/-! ### Stepping a single over-threshold pod -/

/-- an over-threshold observation of an already-tracked pod whose
incremented count is still below `killAfter`: the count is bumped, no
kill. -/
theorem step_over_cons (cfg : Config) (df : String → Bool) (name : String)
    (usage limit : Nat) (a c now : Int) (st : LoopState)
    (he : st.err = none) (hk : st.killed = false) (ht : st.tracker = [(name, ⟨a, c⟩)])
    (hover : overLimitCheck usage limit cfg.memoryLimit = true)
    (hlt : ¬ cfg.killAfter ≤ c + 1) :
    step cfg (fun _ => .ok [usage]) df now st (overPod name limit) =
      { st with tracker := [(name, ⟨a, c + 1⟩)], sampled := st.sampled ++ [name] } := by
  simp [step, overPod, he, hk, ht, observeOver, findPod, setPod, hover, hlt]

/-- an over-threshold observation of a tracked pod whose incremented
count reaches `killAfter`: kill decision, record removed, delete issued
unless dry-run. -/
theorem step_over_cons_kill (cfg : Config) (df : String → Bool) (name : String)
    (usage limit : Nat) (a c now : Int) (st : LoopState)
    (he : st.err = none) (hk : st.killed = false) (ht : st.tracker = [(name, ⟨a, c⟩)])
    (hover : overLimitCheck usage limit cfg.memoryLimit = true)
    (hge : cfg.killAfter ≤ c + 1) (hdf : df name = false) :
    step cfg (fun _ => .ok [usage]) df now st (overPod name limit) =
      { st with tracker := [], sampled := st.sampled ++ [name],
                kills := st.kills ++ [name],
                deletes := st.deletes ++ (if cfg.dryRun then [] else [name]),
                killed := true } := by
  rcases hdr : cfg.dryRun <;>
    simp [step, overPod, he, hk, ht, observeOver, findPod, setPod, delPod, hover, hge,
      hdf, hdr]

/-- first over-threshold observation of an untracked pod with
`killAfter` positive: a record with count 0 is created, no kill — the
off-by-one of lines 170/174. -/
theorem step_over_new (cfg : Config) (df : String → Bool) (name : String)
    (usage limit : Nat) (now : Int) (st : LoopState)
    (he : st.err = none) (hk : st.killed = false) (ht : st.tracker = [])
    (hover : overLimitCheck usage limit cfg.memoryLimit = true)
    (hlt : ¬ cfg.killAfter ≤ 0) :
    step cfg (fun _ => .ok [usage]) df now st (overPod name limit) =
      { st with tracker := [(name, ⟨now, 0⟩)], sampled := st.sampled ++ [name] } := by
  simp [step, overPod, he, hk, ht, observeOver, findPod, setPod, hover, hlt]

/-- first over-threshold observation with `killAfter ≤ 0`: the fresh
record's count 0 already satisfies `count ≥ killAfter`, immediate kill. -/
theorem step_over_new_kill (cfg : Config) (df : String → Bool) (name : String)
    (usage limit : Nat) (now : Int) (st : LoopState)
    (he : st.err = none) (hk : st.killed = false) (ht : st.tracker = [])
    (hover : overLimitCheck usage limit cfg.memoryLimit = true)
    (hge : cfg.killAfter ≤ 0) (hdf : df name = false) :
    step cfg (fun _ => .ok [usage]) df now st (overPod name limit) =
      { st with tracker := [], sampled := st.sampled ++ [name],
                kills := st.kills ++ [name],
                deletes := st.deletes ++ (if cfg.dryRun then [] else [name]),
                killed := true } := by
  rcases hdr : cfg.dryRun <;>
    simp [step, overPod, he, hk, ht, observeOver, findPod, setPod, delPod, hover, hge,
      hdf, hdr]

/-- a below-threshold reading leaves the tracker untouched (line 52 of
the spec's transition 1: no immediate cleanup). -/
theorem step_not_over (cfg : Config) (df : String → Bool) (name : String)
    (usage limit : Nat) (now : Int) (st : LoopState)
    (he : st.err = none) (hk : st.killed = false)
    (hover : overLimitCheck usage limit cfg.memoryLimit = false) :
    step cfg (fun _ => .ok [usage]) df now st (overPod name limit) =
      { st with sampled := st.sampled ++ [name] } := by
  simp [step, overPod, he, hk, hover]

/-- the sweep keeps a single record whose age is within its window. -/
theorem sweep_keep_one (ks now : Int) (n : String) (o : OverLimit)
    (hkeep : now - o.«at» ≤ ks * (o.count + 1)) :
    sweep ks now [(n, o)] = [(n, o)] := by
  simp only [sweep, List.filter]
  rw [decide_eq_true hkeep]

/-- the sweep drops a single record whose age exceeds its window. -/
theorem sweep_drop_one (ks now : Int) (n : String) (o : OverLimit)
    (hdrop : ¬ now - o.«at» ≤ ks * (o.count + 1)) :
    sweep ks now [(n, o)] = [] := by
  simp only [sweep, List.filter]
  rw [decide_eq_false hdrop]

/-! ### Whole iterations on a single observed pod -/

/-- kill decisions per iteration along a finite run of the loop. -/
def traceKills (cfg : Config) (inps : List IterInput) (t : Tracker) : List (List String) :=
  (runTrace cfg inps t).map (·.kills)

/-- an iteration observing a tracked pod over threshold, not yet at
`killAfter`, whose record survives the sweep. -/
theorem runIter_over_cons (cfg : Config) (name : String) (usage limit : Nat)
    (a c now : Int)
    (hover : overLimitCheck usage limit cfg.memoryLimit = true)
    (hlt : ¬ cfg.killAfter ≤ c + 1)
    (hkeep : now - a ≤ cfg.killSleep * (c + 1 + 1)) :
    runIter cfg (consecInput name usage limit now) [(name, ⟨a, c⟩)] =
      { tracker := [(name, ⟨a, c + 1⟩)], killed := false, sampled := [name],
        kills := [], deletes := [], err := none } := by
  unfold runIter consecInput postSweep
  simp only [processPods]
  rw [step_over_cons cfg (fun _ => false) name usage limit a c now
    (initState [(name, ⟨a, c⟩)]) rfl rfl rfl hover hlt]
  have hkeep1 : now - (⟨a, c + 1⟩ : OverLimit).«at» ≤
      cfg.killSleep * ((⟨a, c + 1⟩ : OverLimit).count + 1) := hkeep
  simp [initState, sweep_keep_one _ _ name _ hkeep1]

/-- an iteration observing a tracked pod over threshold whose
incremented count reaches `killAfter`: the kill iteration. -/
theorem runIter_over_cons_kill (cfg : Config) (name : String) (usage limit : Nat)
    (a c now : Int)
    (hover : overLimitCheck usage limit cfg.memoryLimit = true)
    (hge : cfg.killAfter ≤ c + 1) :
    runIter cfg (consecInput name usage limit now) [(name, ⟨a, c⟩)] =
      { tracker := [], killed := true, sampled := [name], kills := [name],
        deletes := if cfg.dryRun then [] else [name], err := none } := by
  unfold runIter consecInput postSweep
  simp only [processPods]
  rw [step_over_cons_kill cfg (fun _ => false) name usage limit a c now
    (initState [(name, ⟨a, c⟩)]) rfl rfl rfl hover hge rfl]
  simp [initState, sweep]

/-- an iteration observing an untracked pod over threshold with
`killAfter` positive: a fresh record with count 0, kept by the sweep. -/
theorem runIter_over_new (cfg : Config) (name : String) (usage limit : Nat)
    (now : Int)
    (hover : overLimitCheck usage limit cfg.memoryLimit = true)
    (hlt : ¬ cfg.killAfter ≤ 0) (hks : 0 ≤ cfg.killSleep) :
    runIter cfg (consecInput name usage limit now) [] =
      { tracker := [(name, ⟨now, 0⟩)], killed := false, sampled := [name],
        kills := [], deletes := [], err := none } := by
  unfold runIter consecInput postSweep
  simp only [processPods]
  rw [step_over_new cfg (fun _ => false) name usage limit now
    (initState []) rfl rfl rfl hover hlt]
  have hkeep1 : now - (⟨now, 0⟩ : OverLimit).«at» ≤
      cfg.killSleep * ((⟨now, 0⟩ : OverLimit).count + 1) := by
    simpa using hks
  simp [initState, sweep_keep_one _ _ name _ hkeep1]

/-- an iteration observing an untracked pod over threshold with
`killAfter ≤ 0`: immediate kill on the first observation. -/
theorem runIter_over_new_kill (cfg : Config) (name : String) (usage limit : Nat)
    (now : Int)
    (hover : overLimitCheck usage limit cfg.memoryLimit = true)
    (hge : cfg.killAfter ≤ 0) :
    runIter cfg (consecInput name usage limit now) [] =
      { tracker := [], killed := true, sampled := [name], kills := [name],
        deletes := if cfg.dryRun then [] else [name], err := none } := by
  unfold runIter consecInput postSweep
  simp only [processPods]
  rw [step_over_new_kill cfg (fun _ => false) name usage limit now
    (initState []) rfl rfl rfl hover hge rfl]
  simp [initState, sweep]

/-- an iteration observing the pod below threshold: the tracker is only
swept, nothing is recorded or killed. -/
theorem runIter_not_over (cfg : Config) (name : String) (usage limit : Nat)
    (now : Int) (t : Tracker)
    (hover : overLimitCheck usage limit cfg.memoryLimit = false) :
    runIter cfg (consecInput name usage limit now) t =
      { tracker := sweep cfg.killSleep now t, killed := false, sampled := [name],
        kills := [], deletes := [], err := none } := by
  unfold runIter consecInput postSweep
  simp only [processPods]
  rw [step_not_over cfg (fun _ => false) name usage limit now
    (initState t) rfl rfl hover]
  simp [initState]

/-! ### Consecutive over-threshold streaks -/

/-- a streak continued from an existing record `⟨a, c⟩` whose window is
still alive: as long as the run stays below `killAfter` no kill is
decided, and when it reaches `killAfter` the single kill happens exactly
at the iteration that brings the count to `K`.  The hypotheses
`0 ≤ gap ≤ killSleep` keep the record inside its decaying expiry window
at every sweep. -/
theorem streak_tracked (cfg : Config) (name : String) (usage limit : Nat)
    (gap : Int) (K : Nat) (hKA : cfg.killAfter = (K : Int))
    (hover : overLimitCheck usage limit cfg.memoryLimit = true)
    (hgap0 : 0 ≤ gap) (hgapk : gap ≤ cfg.killSleep) :
    ∀ (k c : Nat) (a t0 : Int), c < K →
      t0 - a ≤ cfg.killSleep * ((c : Int) + 2) →
      (k ≤ K - c - 1 →
        traceKills cfg (consecTrace name usage limit t0 gap k)
          [(name, ⟨a, (c : Int)⟩)] = List.replicate k []) ∧
      (K - c ≤ k →
        (traceKills cfg (consecTrace name usage limit t0 gap k)
            [(name, ⟨a, (c : Int)⟩)]).take (K - c - 1) =
          List.replicate (K - c - 1) [] ∧
        (traceKills cfg (consecTrace name usage limit t0 gap k)
            [(name, ⟨a, (c : Int)⟩)])[K - c - 1]? = some [name]) := by
  intro k
  induction k with
  | zero =>
    intro c a t0 hc hH
    exact ⟨fun _ => rfl, fun hk => absurd hk (by omega)⟩
  | succ k ih =>
    intro c a t0 hc hH
    by_cases hkill : K ≤ c + 1
    · have hge : cfg.killAfter ≤ (c : Int) + 1 := by
        rw [hKA]; exact_mod_cast hkill
      have hst := runIter_over_cons_kill cfg name usage limit a (c : Int) t0 hover hge
      have hKc : K - c - 1 = 0 := by omega
      simp only [consecTrace, traceKills, runTrace, hst]
      refine ⟨fun hk => absurd hk (by omega), fun _ => ?_⟩
      simp [hKc]
    · have hlt : ¬ cfg.killAfter ≤ (c : Int) + 1 := by
        rw [hKA]
        intro h
        exact hkill (by exact_mod_cast h)
      have hkeep : t0 - a ≤ cfg.killSleep * ((c : Int) + 1 + 1) := by
        have hring : (c : Int) + 1 + 1 = (c : Int) + 2 := by ring
        rw [hring]
        exact hH
      have hst := runIter_over_cons cfg name usage limit a (c : Int) t0 hover hlt hkeep
      have hc1 : c + 1 < K := by omega
      have hH1 : t0 + gap - a ≤ cfg.killSleep * (((c + 1 : Nat) : Int) + 2) := by
        push_cast
        have hexp : cfg.killSleep * ((c : Int) + 1 + 2) =
            cfg.killSleep * ((c : Int) + 2) + cfg.killSleep := by ring
        rw [hexp]
        linarith
      have hih := ih (c + 1) a (t0 + gap) hc1 hH1
      push_cast at hih
      simp only [consecTrace, traceKills, runTrace, hst]
      constructor
      · intro hk
        have h1 := hih.1 (by omega)
        simp only [traceKills] at h1
        simp [h1, List.replicate_succ]
      · intro hk
        obtain ⟨h2a, h2b⟩ := hih.2 (by omega)
        simp only [traceKills] at h2a h2b
        have hKcc : K - c - 1 = (K - (c + 1) - 1) + 1 := by omega
        rw [hKcc]
        constructor
        · simp [List.take_succ_cons, h2a, List.replicate_succ]
        · simp [h2b]

/-- a streak started from an untracked pod: no kill during the first `K`
iterations, and the kill happens exactly at iteration `K` (0-based),
i.e. at the (K+1)-th consecutive over-threshold observation. -/
theorem streak_empty (cfg : Config) (name : String) (usage limit : Nat)
    (t0 gap : Int) (K : Nat) (hKA : cfg.killAfter = (K : Int))
    (hover : overLimitCheck usage limit cfg.memoryLimit = true)
    (hgap0 : 0 ≤ gap) (hgapk : gap ≤ cfg.killSleep) :
    ∀ k : Nat,
      (k ≤ K → traceKills cfg (consecTrace name usage limit t0 gap k) [] =
        List.replicate k []) ∧
      (K + 1 ≤ k →
        (traceKills cfg (consecTrace name usage limit t0 gap k) []).take K =
          List.replicate K [] ∧
        (traceKills cfg (consecTrace name usage limit t0 gap k) [])[K]? =
          some [name]) := by
  intro k
  have hks : 0 ≤ cfg.killSleep := le_trans hgap0 hgapk
  cases k with
  | zero => exact ⟨fun _ => rfl, fun hk => absurd hk (by omega)⟩
  | succ k =>
    by_cases hK0 : K = 0
    · have hge : cfg.killAfter ≤ 0 := by rw [hKA, hK0]; simp
      have hst := runIter_over_new_kill cfg name usage limit t0 hover hge
      simp only [consecTrace, traceKills, runTrace, hst]
      exact ⟨fun hk => absurd hk (by omega), fun _ => by simp [hK0]⟩
    · have hlt : ¬ cfg.killAfter ≤ 0 := by
        rw [hKA]
        intro h
        have hKle : K ≤ 0 := by exact_mod_cast h
        exact hK0 (by omega)
      have hst := runIter_over_new cfg name usage limit t0 hover hlt hks
      have hH : (t0 + gap) - t0 ≤ cfg.killSleep * ((0 : Int) + 2) := by
        have hexp : cfg.killSleep * ((0 : Int) + 2) = cfg.killSleep + cfg.killSleep := by
          ring
        rw [hexp]
        linarith
      have htr := streak_tracked cfg name usage limit gap K hKA hover hgap0 hgapk k 0 t0
        (t0 + gap) (by omega) (by simpa using hH)
      simp only [Nat.cast_zero, Nat.sub_zero] at htr
      simp only [consecTrace, traceKills, runTrace, hst]
      constructor
      · intro hk
        have h1 := htr.1 (by omega)
        simp only [traceKills] at h1
        simp [h1, List.replicate_succ]
      · intro hk
        obtain ⟨h2a, h2b⟩ := htr.2 (by omega)
        simp only [traceKills] at h2a h2b
        have hKs : K = (K - 1) + 1 := by omega
        rw [hKs]
        constructor
        · simp [List.take_succ_cons, h2a, List.replicate_succ]
        · simp [h2b]

/-- C1 counterexample: as stated, the claim is false.  With
`killAfter = 2`, `killSleep = 1` and a poll gap of 10 time units, a pod
over threshold on exactly k = 3 = K + 1 consecutive iterations is never
killed: the expiry sweep of lines 189-195 erases the streak record
between the second and third observations, so the count never reaches 2. -/
theorem kill_iff_streak_counterexample :
    2 + 1 ≤ 3 ∧
      traceKills ⟨50, 2, 1, false⟩ (consecTrace "p" 1 1 0 10 3) [] = [[], [], []] ∧
      ∀ l ∈ traceKills ⟨50, 2, 1, false⟩ (consecTrace "p" 1 1 0 10 3) [], l = [] := by
  refine ⟨by norm_num, by decide, by decide⟩

/-- C1 (amended): for a pod observed over-threshold on exactly `k`
consecutive iterations with `killAfter = K`, *provided the record never
expires mid-streak — sufficient condition: the gap between consecutive
observations satisfies `0 ≤ gap ≤ killSleep`, as with the default
`sleep = killSleep` configuration* — a kill is decided iff `k ≥ K + 1`,
no kill is decided during the first `K` iterations, and the kill is
decided exactly on the iteration of the (K+1)-th consecutive
over-threshold observation (0-based index `K`). -/
theorem kill_iff_streak_reaches_killAfter_plus_one
    (cfg : Config) (name : String) (usage limit : Nat) (t0 gap : Int) (k K : Nat)
    (hKA : cfg.killAfter = (K : Int))
    (hover : overLimitCheck usage limit cfg.memoryLimit = true)
    (hgap0 : 0 ≤ gap) (hgapk : gap ≤ cfg.killSleep) :
    ((∃ l ∈ traceKills cfg (consecTrace name usage limit t0 gap k) [], l ≠ []) ↔
      K + 1 ≤ k) ∧
    (K + 1 ≤ k →
      (traceKills cfg (consecTrace name usage limit t0 gap k) []).take K =
        List.replicate K [] ∧
      (traceKills cfg (consecTrace name usage limit t0 gap k) [])[K]? =
        some [name]) := by
  have hse := streak_empty cfg name usage limit t0 gap K hKA hover hgap0 hgapk k
  constructor
  · constructor
    · intro hex
      by_contra hnk
      have h1 := hse.1 (by omega)
      obtain ⟨l, hl, hlne⟩ := hex
      rw [h1] at hl
      exact hlne (List.eq_of_mem_replicate hl)
    · intro hk
      obtain ⟨-, h2b⟩ := hse.2 hk
      exact ⟨[name], List.getElem?_mem h2b, by simp⟩
  · exact hse.2

/-- C1 amended-claim witness: default-style configuration
(`gap = killSleep = 10`), `K = 2`, `k = 3`: a kill is decided, on the
third iteration exactly. -/
theorem kill_iff_streak_witness :
    ((∃ l ∈ traceKills ⟨50, 2, 10, false⟩ (consecTrace "p" 1 1 0 10 3) [], l ≠ []) ↔
      2 + 1 ≤ 3) ∧
    (2 + 1 ≤ 3 →
      (traceKills ⟨50, 2, 10, false⟩ (consecTrace "p" 1 1 0 10 3) []).take 2 =
        List.replicate 2 [] ∧
      (traceKills ⟨50, 2, 10, false⟩ (consecTrace "p" 1 1 0 10 3) [])[2]? =
        some ["p"]) :=
  kill_iff_streak_reaches_killAfter_plus_one ⟨50, 2, 10, false⟩ "p" 1 1 0 10 3 2
    (by norm_num) (by decide) (by norm_num) (by norm_num)

/-! ### Duplicate occurrences within one iteration -/

/-- scanning `j` further occurrences of an already-tracked over-threshold
pod within one iteration increments its count `j` more times (once per
occurrence), as long as the count stays below `killAfter`. -/
theorem processPods_replicate_over (cfg : Config) (name : String)
    (usage limit : Nat) (now : Int)
    (hover : overLimitCheck usage limit cfg.memoryLimit = true) :
    ∀ (j : Nat) (c a : Int) (st : LoopState),
      st.err = none → st.killed = false → st.tracker = [(name, ⟨a, c⟩)] →
      c + (j : Int) < cfg.killAfter →
      processPods cfg (fun _ => .ok [usage]) (fun _ => false) now
          (List.replicate j (overPod name limit)) st =
        { st with tracker := [(name, ⟨a, c + (j : Int)⟩)],
                  sampled := st.sampled ++ List.replicate j name } := by
  intro j
  induction j with
  | zero =>
    intro c a st he hk ht _
    simp only [List.replicate, processPods, Nat.cast_zero, add_zero, List.append_nil,
      ← ht]
  | succ j ih =>
    intro c a st he hk ht hlt
    have hj0 : (0 : Int) ≤ (j : Int) := by positivity
    have hcast : ((j + 1 : Nat) : Int) = (j : Int) + 1 := by push_cast; ring
    rw [hcast] at hlt
    have hlt1 : ¬ cfg.killAfter ≤ c + 1 := by
      intro h
      linarith
    rw [List.replicate_succ]
    simp only [processPods]
    rw [step_over_cons cfg (fun _ => false) name usage limit a c now st he hk ht
      hover hlt1]
    rw [ih (c + 1) a _ (by simpa using he) (by simpa using hk) rfl (by linarith)]
    rw [hcast]
    have harith : c + 1 + (j : Int) = c + ((j : Int) + 1) := by ring
    simp [harith, List.append_assoc, List.replicate_succ]

/-- C4 counterexample: as stated, the claim is false.  With the pod "p"
already tracked at count 0 and appearing twice in a single iteration's
candidate list, its count rises to 2 within that one iteration — an
increase of 2, not at most 1. -/
theorem count_per_iteration_counterexample :
    findPod (runIter ⟨50, 5, 1000, false⟩ (dupInput "p" 1 1 2 0)
        [("p", ⟨0, 0⟩)]).tracker "p" = some ⟨0, 2⟩ ∧
      findPod [("p", ⟨0, 0⟩)] "p" = some ⟨0, 0⟩ ∧
      ¬ ((2 : Int) - 0 ≤ 1) := by
  refine ⟨by decide, by decide, by norm_num⟩

/-- C4 (amended): `consecutiveCount` counts over-threshold *occurrences*
processed, not loop iterations: a pod that appears `m` times in one
iteration's candidate list (duplicates are accepted, not deduplicated)
ends that single iteration with count `m - 1` starting from untracked —
one creation at count 0 plus one increment per further occurrence. -/
theorem dup_occurrences_each_increment (cfg : Config) (name : String)
    (usage limit : Nat) (m : Nat) (now : Int)
    (hover : overLimitCheck usage limit cfg.memoryLimit = true)
    (hks : 0 ≤ cfg.killSleep) (hm : 1 ≤ m) (hmK : (m : Int) ≤ cfg.killAfter) :
    (runIter cfg (dupInput name usage limit m now) []).tracker =
      [(name, ⟨now, (m : Int) - 1⟩)] ∧
    (runIter cfg (dupInput name usage limit m now) []).kills = [] := by
  obtain ⟨j, rfl⟩ : ∃ j, m = j + 1 := ⟨m - 1, by omega⟩
  have hcast : ((j + 1 : Nat) : Int) = (j : Int) + 1 := by push_cast; ring
  rw [hcast] at hmK
  have hj0 : (0 : Int) ≤ (j : Int) := by positivity
  have hlt : ¬ cfg.killAfter ≤ 0 := by
    intro h
    linarith
  unfold runIter dupInput postSweep
  rw [List.replicate_succ]
  simp only [processPods]
  rw [step_over_new cfg (fun _ => false) name usage limit now (initState []) rfl rfl
    rfl hover hlt]
  rw [processPods_replicate_over cfg name usage limit now hover j 0 now _
    (by simp [initState]) (by simp [initState]) (by simp) (by linarith)]
  have hkeep : now - (⟨now, (j : Int)⟩ : OverLimit).«at» ≤
      cfg.killSleep * ((⟨now, (j : Int)⟩ : OverLimit).count + 1) := by
    have hpos : (0 : Int) ≤ cfg.killSleep * ((j : Int) + 1) := by
      apply mul_nonneg hks
      linarith
    simpa using hpos
  rw [hcast]
  have harith : (j : Int) = (j : Int) + 1 - 1 := by ring
  simp [initState, sweep_keep_one _ _ name _ hkeep, ← harith]

/-- C4 amended-claim witness: three occurrences of the same pod in one
iteration, `killAfter = 5`: the count after that iteration is 2. -/
theorem dup_occurrences_witness :
    (runIter ⟨50, 5, 1000, false⟩ (dupInput "p" 1 1 3 0) []).tracker =
      [("p", ⟨0, (3 : Int) - 1⟩)] ∧
    (runIter ⟨50, 5, 1000, false⟩ (dupInput "p" 1 1 3 0) []).kills = [] :=
  dup_occurrences_each_increment ⟨50, 5, 1000, false⟩ "p" 1 1 3 0 (by decide)
    (by norm_num) (by norm_num) (by norm_num)

/-! ### Zero memory limit -/

/-- C9: a Running pod whose first container declares no memory limit
(limit 0) is not skipped by the sampler.  The zero-divisor comparison
behaves as +Inf/NaN: with positive usage the pod counts as
over-threshold for every configured percentage — it is tracked and,
over `killAfter + 1` iterations, killed — while with zero usage the NaN
comparison counts as below threshold and nothing is tracked; in both
cases the pod's metrics are sampled. -/
theorem zero_limit_not_skipped (cfg : Config) (name : String) (u : Nat) (t0 : Int)
    (K : Nat) (hKA : cfg.killAfter = (K : Int)) (hks : 0 ≤ cfg.killSleep) :
    (∀ (v : Nat) (m : Int), overLimitCheck v 0 m = decide (0 < v)) ∧
    (0 < u → 0 < K →
      (runIter cfg (consecInput name u 0 t0) []).tracker = [(name, ⟨t0, 0⟩)] ∧
      (runIter cfg (consecInput name u 0 t0) []).sampled = [name]) ∧
    (0 < u →
      (traceKills cfg (consecTrace name u 0 t0 0 (K + 1)) [])[K]? = some [name]) ∧
    ((runIter cfg (consecInput name 0 0 t0) []).tracker = [] ∧
      (runIter cfg (consecInput name 0 0 t0) []).kills = [] ∧
      (runIter cfg (consecInput name 0 0 t0) []).sampled = [name]) := by
  have hover0 : ∀ (v : Nat) (m : Int), overLimitCheck v 0 m = decide (0 < v) := by
    intro v m
    simp [overLimitCheck]
  refine ⟨hover0, ?_, ?_, ?_⟩
  · intro hu hK
    have hover : overLimitCheck u 0 cfg.memoryLimit = true := by
      rw [hover0]
      simpa using hu
    have hlt : ¬ cfg.killAfter ≤ 0 := by
      rw [hKA]
      intro h
      have hK0 : K ≤ 0 := by exact_mod_cast h
      omega
    rw [runIter_over_new cfg name u 0 t0 hover hlt hks]
    exact ⟨rfl, rfl⟩
  · intro hu
    have hover : overLimitCheck u 0 cfg.memoryLimit = true := by
      rw [hover0]
      simpa using hu
    have hse := streak_empty cfg name u 0 t0 0 K hKA hover le_rfl hks (K + 1)
    exact (hse.2 le_rfl).2
  · have hover : overLimitCheck 0 0 cfg.memoryLimit = false := by
      rw [hover0]
      simp
    rw [runIter_not_over cfg name 0 0 t0 [] hover]
    exact ⟨rfl, rfl, rfl⟩

/-- C9 witness: with default-like threshold 95, `killAfter = 1`, a
zero-limit pod using 7 bytes is tracked on first sight and killed on the
second iteration, while a zero-limit pod using 0 bytes is never
tracked. -/
theorem zero_limit_witness :
    (runIter ⟨95, 1, 5, false⟩ (consecInput "p" 7 0 0) []).tracker =
        [("p", ⟨0, 0⟩)] ∧
      (traceKills ⟨95, 1, 5, false⟩ (consecTrace "p" 7 0 0 0 2) [])[1]? =
        some ["p"] ∧
      (runIter ⟨95, 1, 5, false⟩ (consecInput "p" 0 0 0) []).tracker = [] := by
  have h := zero_limit_not_skipped ⟨95, 1, 5, false⟩ "p" 7 0 1 (by norm_num)
    (by norm_num)
  exact ⟨(h.2.1 (by norm_num) (by norm_num)).1, h.2.2.1 (by norm_num), h.2.2.2.1⟩

/-! ### Dry-run -/

/-- the scan of one pod in dry-run differs from the real run only in the
delete requests issued, provided the real delete would succeed: dry-run
reads the same state, takes the same branches, and performs the same
tracker update, kill decision and short-circuit. -/
theorem step_stripDeletes (cfg : Config) (metrics : String → MetricsResult)
    (deleteFails : String → Bool) (now : Int) (st : LoopState) (pod : Pod)
    (hdf : deleteFails pod.name = false) :
    step { cfg with dryRun := true } metrics deleteFails now (stripDeletes st) pod =
      stripDeletes (step { cfg with dryRun := false } metrics deleteFails now st pod) := by
  rcases st with ⟨tr, kd, sp, ks, ds, er⟩
  unfold step stripDeletes
  rcases hm : metrics pod.name with _ | _ | usages <;>
    simp only [hm] <;> split_ifs <;> simp_all

/-- the whole per-iteration pod scan commutes with forgetting deletes. -/
theorem processPods_stripDeletes (cfg : Config) (metrics : String → MetricsResult)
    (deleteFails : String → Bool) (now : Int) (pods : List Pod) (st : LoopState)
    (hdf : ∀ s, deleteFails s = false) :
    processPods { cfg with dryRun := true } metrics deleteFails now pods
        (stripDeletes st) =
      stripDeletes (processPods { cfg with dryRun := false } metrics deleteFails now
        pods st) := by
  induction pods generalizing st with
  | nil => rfl
  | cons pod rest ih =>
    simp only [processPods]
    rw [step_stripDeletes cfg metrics deleteFails now st pod (hdf pod.name)]
    exact ih _

/-- one full iteration commutes with forgetting deletes. -/
theorem runIter_stripDeletes (cfg : Config) (inp : IterInput) (t : Tracker)
    (hdf : ∀ s, inp.deleteFails s = false) :
    runIter { cfg with dryRun := true } inp t =
      stripDeletes (runIter { cfg with dryRun := false } inp t) := by
  unfold runIter
  have hps : processPods { cfg with dryRun := true } inp.metrics inp.deleteFails
      inp.now inp.pods (initState t) =
      stripDeletes (processPods { cfg with dryRun := false } inp.metrics
        inp.deleteFails inp.now inp.pods (initState t)) := by
    conv_lhs => rw [show initState t = stripDeletes (initState t) from rfl]
    exact processPods_stripDeletes cfg inp.metrics inp.deleteFails inp.now inp.pods
      (initState t) hdf
  rw [hps]
  generalize processPods { cfg with dryRun := false } inp.metrics inp.deleteFails
    inp.now inp.pods (initState t) = X
  rcases X with ⟨tr, kd, sp, ks, ds, er⟩
  unfold postSweep stripDeletes
  split <;> simp_all

/-- a whole run commutes with forgetting deletes. -/
theorem runTrace_stripDeletes (cfg : Config) (inps : List IterInput) (t : Tracker)
    (hdf : ∀ inp ∈ inps, ∀ s, inp.deleteFails s = false) :
    runTrace { cfg with dryRun := true } inps t =
      (runTrace { cfg with dryRun := false } inps t).map stripDeletes := by
  induction inps generalizing t with
  | nil => rfl
  | cons inp rest ih =>
    simp only [runTrace]
    rw [runIter_stripDeletes cfg inp t (hdf inp (by simp))]
    have htr : (stripDeletes (runIter { cfg with dryRun := false } inp t)).tracker =
        (runIter { cfg with dryRun := false } inp t).tracker := rfl
    have herr : (stripDeletes (runIter { cfg with dryRun := false } inp t)).err =
        (runIter { cfg with dryRun := false } inp t).err := rfl
    rw [htr, herr]
    split
    · rfl
    · rw [ih _ (fun i hi s => hdf i (List.mem_cons_of_mem inp hi) s)]
      rfl

/-- an iteration with a single over-threshold pod whose delete request,
when issued, fails (the `err != nil` branch of lines 178-180). -/
def failingDeleteInput : IterInput :=
  { pods := [overPod "p" 1], metrics := fun _ => .ok [1],
    deleteFails := fun _ => true, now := 0 }

/-- C7 counterexample: as stated over *every* input trace, the claim is
false.  With `killAfter = 0` and a failing delete request, the dry-run
run deletes the tracker record and continues, while the real run keeps
the record and aborts with the delete error (lines 178-180 return before
the `delete(podsToKill, ...)` of line 183): the tracker-state evolutions
differ. -/
theorem dry_run_counterexample :
    (runTrace { (⟨50, 0, 5, false⟩ : Config) with dryRun := true }
        [failingDeleteInput] []).map (·.tracker) = [[]] ∧
      (runTrace { (⟨50, 0, 5, false⟩ : Config) with dryRun := false }
          [failingDeleteInput] []).map (·.tracker) = [[("p", ⟨0, 0⟩)]] ∧
      ¬ ((runTrace { (⟨50, 0, 5, false⟩ : Config) with dryRun := true }
            [failingDeleteInput] []).map (·.tracker) =
          (runTrace { (⟨50, 0, 5, false⟩ : Config) with dryRun := false }
            [failingDeleteInput] []).map (·.tracker)) := by
  refine ⟨by decide, by decide, by decide⟩

/-- C7 (amended): with the same configuration apart from the dry-run
flag, and *provided every delete request the real run issues succeeds*
— the proviso the counterexample forces: a failed delete aborts the
real run with the record retained, a divergence dry-run cannot observe
— the dry-run run produces exactly the same state evolution: trackers,
kill decisions, short-circuit flags, samples, errors, differing only in
that it issues no pod-delete request at all. -/
theorem dry_run_same_evolution (cfg : Config) (inps : List IterInput) (t : Tracker)
    (hdf : ∀ inp ∈ inps, ∀ s, inp.deleteFails s = false) :
    runTrace { cfg with dryRun := true } inps t =
        (runTrace { cfg with dryRun := false } inps t).map stripDeletes ∧
      ∀ st ∈ runTrace { cfg with dryRun := true } inps t, st.deletes = [] := by
  have h := runTrace_stripDeletes cfg inps t hdf
  refine ⟨h, ?_⟩
  intro st hst
  rw [h] at hst
  obtain ⟨x, -, rfl⟩ := List.mem_map.mp hst
  rfl

/-- C7 witness: one iteration that kills a pod (`killAfter = 0`): the
dry-run evolution equals the real one with its delete erased, and the
dry-run run issues no delete. -/
theorem dry_run_witness :
    runTrace { (⟨50, 0, 5, false⟩ : Config) with dryRun := true }
          [consecInput "p" 1 1 0] [] =
        (runTrace { (⟨50, 0, 5, false⟩ : Config) with dryRun := false }
          [consecInput "p" 1 1 0] []).map stripDeletes ∧
      ∀ st ∈ runTrace { (⟨50, 0, 5, false⟩ : Config) with dryRun := true }
          [consecInput "p" 1 1 0] [], st.deletes = [] :=
  dry_run_same_evolution ⟨50, 0, 5, false⟩ [consecInput "p" 1 1 0] []
    (by intro inp hi s; simp at hi; simp [hi, consecInput])

/-! ### Pod resolution -/

/-- a not-found service filter contributes nothing and is skipped:
removing it from the list leaves the service resolution unchanged. -/
theorem resolveServices_skip_notFound (env : ResolveEnv) (n : String)
    (hn : env.services n = .notFound) :
    ∀ pre post : List String,
      resolveServices env (pre ++ n :: post) = resolveServices env (pre ++ post) := by
  intro pre
  induction pre with
  | nil =>
    intro post
    simp only [List.nil_append, resolveServices, hn]
  | cons a rest ih =>
    intro post
    simp only [List.cons_append, resolveServices]
    rcases ha : env.services a with _ | _ | svc <;> simp [ha, ih]

/-- a not-found deployment filter contributes nothing and is skipped. -/
theorem resolveDeployments_skip_notFound (env : ResolveEnv) (n : String)
    (hn : env.deployments n = .notFound) :
    ∀ pre post : List String,
      resolveDeployments env (pre ++ n :: post) =
        resolveDeployments env (pre ++ post) := by
  intro pre
  induction pre with
  | nil =>
    intro post
    simp only [List.nil_append, resolveDeployments, hn]
  | cons a rest ih =>
    intro post
    simp only [List.cons_append, resolveDeployments]
    rcases ha : env.deployments a with _ | _ | dep <;> simp [ha, ih]

/-- list membership survives dropping a different head. -/
theorem mem_of_mem_cons_ne {n a : String} {rest : List String}
    (hmem : n ∈ a :: rest) (hne : a ≠ n) : n ∈ rest := by
  rcases List.mem_cons.mp hmem with h | h
  · exact absurd h.symm hne
  · exact h

/-- an api-error service lookup anywhere in the list makes the service
resolution fail. -/
theorem resolveServices_err (env : ResolveEnv) (n : String)
    (hn : env.services n = .apiError) :
    ∀ l : List String, n ∈ l → ∃ e, resolveServices env l = .error e := by
  intro l
  induction l with
  | nil =>
    intro h
    simp at h
  | cons a rest ih =>
    intro hmem
    rcases hm : env.services a with _ | _ | svc
    · have hne : a ≠ n := fun h => by rw [h, hn] at hm; cases hm
      obtain ⟨e, he⟩ := ih (mem_of_mem_cons_ne hmem hne)
      exact ⟨e, by simp [resolveServices, hm, he]⟩
    · exact ⟨.apiErr, by simp [resolveServices, hm]⟩
    · rcases hp : env.podsBySelector svc.selector with _ | pods
      · exact ⟨.apiErr, by simp [resolveServices, hm, hp]⟩
      · have hne : a ≠ n := fun h => by rw [h, hn] at hm; cases hm
        obtain ⟨e, he⟩ := ih (mem_of_mem_cons_ne hmem hne)
        exact ⟨e, by simp [resolveServices, hm, hp, he]⟩

/-- an api-error deployment lookup anywhere in the list makes the
deployment resolution fail. -/
theorem resolveDeployments_err (env : ResolveEnv) (n : String)
    (hn : env.deployments n = .apiError) :
    ∀ l : List String, n ∈ l → ∃ e, resolveDeployments env l = .error e := by
  intro l
  induction l with
  | nil =>
    intro h
    simp at h
  | cons a rest ih =>
    intro hmem
    rcases hm : env.deployments a with _ | _ | dep
    · have hne : a ≠ n := fun h => by rw [h, hn] at hm; cases hm
      obtain ⟨e, he⟩ := ih (mem_of_mem_cons_ne hmem hne)
      exact ⟨e, by simp [resolveDeployments, hm, he]⟩
    · exact ⟨.apiErr, by simp [resolveDeployments, hm]⟩
    · rcases hp : env.podsBySelector dep.matchLabels with _ | pods
      · exact ⟨.apiErr, by simp [resolveDeployments, hm, hp]⟩
      · rcases hr : dep.replicas with _ | r
        · exact ⟨.nilPanic, by simp [resolveDeployments, hm, hp, hr]⟩
        · have hne : a ≠ n := fun h => by rw [h, hn] at hm; cases hm
          obtain ⟨e, he⟩ := ih (mem_of_mem_cons_ne hmem hne)
          by_cases hge :
              (((pods.filter (fun p => p.phase == "Running")).length : Int) ≥ r)
          · exact ⟨e, by simp [resolveDeployments, hm, hp, hr, hge, he]⟩
          · exact ⟨e, by simp [resolveDeployments, hm, hp, hr, hge, he]⟩

/-- with no service filters and at least one deployment filter,
`getPods` is the deployment resolution. -/
theorem getPods_no_services (env : ResolveEnv) (deps : List String)
    (hne : deps ≠ []) :
    getPods env [] deps = resolveDeployments env deps := by
  unfold getPods
  have hd : deps.isEmpty = false := by
    cases deps
    · exact absurd rfl hne
    · rfl
  rw [hd]
  simp only [List.isEmpty_nil, Bool.true_and, Bool.false_eq_true, if_false,
    resolveServices]
  rcases h : resolveDeployments env deps with e | pods <;> simp [h]

/-- C5: a "not found" service or deployment lookup is non-fatal — the
resolution with that filter removed is identical, other filters still
contribute — while any other lookup error makes the whole resolution
fail instead of returning a pod list. -/
theorem not_found_filter_skipped (env : ResolveEnv) (n : String)
    (pre post svcs deps : List String) :
    (env.services n = .notFound → (pre ++ post ≠ [] ∨ deps ≠ []) →
      getPods env (pre ++ n :: post) deps = getPods env (pre ++ post) deps) ∧
    (env.deployments n = .notFound → (svcs ≠ [] ∨ pre ++ post ≠ []) →
      getPods env svcs (pre ++ n :: post) = getPods env svcs (pre ++ post)) ∧
    (n ∈ svcs → env.services n = .apiError →
      ∀ pods, getPods env svcs deps ≠ .ok pods) ∧
    (n ∈ deps → env.deployments n = .apiError →
      ∀ pods, getPods env svcs deps ≠ .ok pods) := by
  refine ⟨?_, ?_, ?_, ?_⟩
  · intro hn hne
    unfold getPods
    have h1 : (pre ++ n :: post).isEmpty = false := by
      cases pre <;> rfl
    have h2 : ((pre ++ post).isEmpty && deps.isEmpty) = false := by
      rcases hne with h | h
      · have : (pre ++ post).isEmpty = false := by
          cases hpp : pre ++ post
          · exact absurd hpp h
          · rfl
        simp [this]
      · have : deps.isEmpty = false := by
          cases hdd : deps
          · exact absurd hdd h
          · rfl
        simp [this]
    rw [h1, h2]
    simp only [Bool.false_and, Bool.false_eq_true, if_false]
    rw [resolveServices_skip_notFound env n hn pre post]
  · intro hn hne
    unfold getPods
    have h1 : (svcs.isEmpty && (pre ++ n :: post).isEmpty) = false := by
      have : (pre ++ n :: post).isEmpty = false := by cases pre <;> rfl
      simp [this]
    have h2 : (svcs.isEmpty && (pre ++ post).isEmpty) = false := by
      rcases hne with h | h
      · have : svcs.isEmpty = false := by
          cases hss : svcs
          · exact absurd hss h
          · rfl
        simp [this]
      · have : (pre ++ post).isEmpty = false := by
          cases hpp : pre ++ post
          · exact absurd hpp h
          · rfl
        simp [this]
    rw [h1, h2]
    simp only [Bool.false_eq_true, if_false]
    rw [resolveDeployments_skip_notFound env n hn pre post]
  · intro hmem herr pods hok
    obtain ⟨e, he⟩ := resolveServices_err env n herr svcs hmem
    have h1 : (svcs.isEmpty && deps.isEmpty) = false := by
      have : svcs.isEmpty = false := by
        cases hss : svcs
        · rw [hss] at hmem; simp at hmem
        · rfl
      simp [this]
    unfold getPods at hok
    rw [h1] at hok
    simp only [Bool.false_eq_true, if_false, he] at hok
    simp at hok
  · intro hmem herr pods hok
    obtain ⟨e, he⟩ := resolveDeployments_err env n herr deps hmem
    have h1 : (svcs.isEmpty && deps.isEmpty) = false := by
      have : deps.isEmpty = false := by
        cases hdd : deps
        · rw [hdd] at hmem; simp at hmem
        · rfl
      simp [this]
    unfold getPods at hok
    rw [h1] at hok
    simp only [Bool.false_eq_true, if_false, he] at hok
    rcases hs : resolveServices env svcs with e2 | svcPods <;> rw [hs] at hok <;>
      simp at hok

/-- C6: a deployment filter's pods are included in the resolution
exactly when the number of Running pods matching its selector is at
least the desired replica count; below that, the deployment contributes
nothing to the candidate set of that iteration. -/
theorem deployment_included_iff_running_ge (env : ResolveEnv) (name : String)
    (rest : List String) (dep : Deployment) (r : Int) (depPods : List Pod)
    (hd : env.deployments name = .found dep) (hr : dep.replicas = some r)
    (hp : env.podsBySelector dep.matchLabels = some depPods) :
    (((depPods.filter (fun p => p.phase == "Running")).length : Int) ≥ r →
      resolveDeployments env (name :: rest) =
        Except.map (fun l => depPods ++ l) (resolveDeployments env rest)) ∧
    (((depPods.filter (fun p => p.phase == "Running")).length : Int) < r →
      resolveDeployments env (name :: rest) = resolveDeployments env rest) ∧
    getPods env [] (name :: rest) = resolveDeployments env (name :: rest) := by
  refine ⟨?_, ?_, getPods_no_services env (name :: rest) (List.cons_ne_nil _ _)⟩
  · intro hge
    simp only [resolveDeployments, hd, hp, hr, if_pos hge]
    rcases h : resolveDeployments env rest with e | pods <;> simp [Except.map, h]
  · intro hlt
    simp only [resolveDeployments, hd, hp, hr, if_neg (not_le.mpr hlt)]

/-- C10: a deployment whose spec declares no replica count crashes the
resolution at the unguarded dereference of line 251 — a nil-pointer
panic, not a skip and not a returned API error. -/
theorem nil_replicas_panics (env : ResolveEnv) (name : String) (rest : List String)
    (dep : Deployment) (depPods : List Pod)
    (hd : env.deployments name = .found dep) (hr : dep.replicas = none)
    (hp : env.podsBySelector dep.matchLabels = some depPods) :
    resolveDeployments env (name :: rest) = .error .nilPanic ∧
      getPods env [] (name :: rest) = .error .nilPanic := by
  have h1 : resolveDeployments env (name :: rest) = .error .nilPanic := by
    simp [resolveDeployments, hd, hp, hr]
  exact ⟨h1, by
    rw [getPods_no_services env (name :: rest) (List.cons_ne_nil _ _), h1]⟩

/-! ### Concrete resolution environments for the witnesses -/

/-- a non-Running pod. -/
def pendingPod (name : String) : Pod :=
  { name := name, ns := "", phase := "Pending", containerLimits := [1] }

/-- cluster for the C5 witness: one healthy service, one healthy
deployment, one missing service, one missing deployment, one service and
one deployment whose lookups fail with a non-not-found error. -/
def envC5 : ResolveEnv where
  allPods := .ok []
  services := fun s =>
    if s = "svc1" then .found ⟨[("app", "a")]⟩
    else if s = "bad" then .apiError
    else .notFound
  deployments := fun d =>
    if d = "dep1" then .found ⟨[("app", "d")], some 1⟩
    else if d = "badd" then .apiError
    else .notFound
  podsBySelector := fun sel =>
    if sel = [("app", "a")] then some [overPod "pa" 5]
    else if sel = [("app", "d")] then some [overPod "pd" 5]
    else some []

/-- C5 witness: with the missing service (resp. deployment) dropped the
resolution is unchanged and still succeeds with the healthy filters'
pods; a non-not-found lookup error on either kind prevents any pod list
from being returned. -/
theorem not_found_filter_witness :
    getPods envC5 (["svc1"] ++ "missing" :: []) ["dep1"] =
        getPods envC5 (["svc1"] ++ []) ["dep1"] ∧
      getPods envC5 ["svc1"] (["dep1"] ++ "missingd" :: []) =
        getPods envC5 ["svc1"] (["dep1"] ++ []) ∧
      (∀ pods, getPods envC5 ["bad"] ["dep1"] ≠ .ok pods) ∧
      (∀ pods, getPods envC5 ["svc1"] ["badd"] ≠ .ok pods) ∧
      getPods envC5 ["svc1"] ["dep1"] = .ok [overPod "pa" 5, overPod "pd" 5] := by
  refine ⟨(not_found_filter_skipped envC5 "missing" ["svc1"] [] [] ["dep1"]).1 (by decide)
      (by simp),
    (not_found_filter_skipped envC5 "missingd" ["dep1"] [] ["svc1"] []).2.1
      (by decide) (by simp),
    (not_found_filter_skipped envC5 "bad" [] [] ["bad"] ["dep1"]).2.2.1 (by simp)
      (by decide),
    (not_found_filter_skipped envC5 "badd" [] [] ["svc1"] ["badd"]).2.2.2 (by simp)
      (by decide),
    rfl⟩

/-- cluster for the C6 witness: deployment "d1" desires 1 replica and
has 1 Running pod; deployment "d3" desires 3 replicas but only 2 of its
pods are Running. -/
def envC6 : ResolveEnv where
  allPods := .ok []
  services := fun _ => .notFound
  deployments := fun d =>
    if d = "d1" then .found ⟨[("app", "d1")], some 1⟩
    else if d = "d3" then .found ⟨[("app", "d3")], some 3⟩
    else .notFound
  podsBySelector := fun sel =>
    if sel = [("app", "d1")] then some [overPod "pd" 5]
    else if sel = [("app", "d3")] then
      some [overPod "r1" 5, overPod "r2" 5, pendingPod "x"]
    else some []

/-- C6 witness: "d1" (running 1 ≥ desired 1) contributes its pods;
"d3" (running 2 < desired 3) contributes nothing at all. -/
theorem deployment_included_witness :
    resolveDeployments envC6 ("d1" :: []) =
        Except.map (fun l => [overPod "pd" 5] ++ l) (resolveDeployments envC6 []) ∧
      resolveDeployments envC6 ("d3" :: []) = resolveDeployments envC6 [] ∧
      getPods envC6 [] ("d3" :: []) = resolveDeployments envC6 ("d3" :: []) := by
  refine ⟨(deployment_included_iff_running_ge envC6 "d1" [] ⟨[("app", "d1")], some 1⟩
      1 [overPod "pd" 5] (by decide) rfl (by decide)).1 (by decide),
    (deployment_included_iff_running_ge envC6 "d3" []
      ⟨[("app", "d3")], some 3⟩ 3 [overPod "r1" 5, overPod "r2" 5, pendingPod "x"]
      (by decide) rfl (by decide)).2.1 (by decide),
    (deployment_included_iff_running_ge envC6 "d3" []
      ⟨[("app", "d3")], some 3⟩ 3 [overPod "r1" 5, overPod "r2" 5, pendingPod "x"]
      (by decide) rfl (by decide)).2.2⟩

/-- cluster for the C10 witness: a deployment whose spec has no replica
count. -/
def envC10 : ResolveEnv where
  allPods := .ok []
  services := fun _ => .notFound
  deployments := fun d =>
    if d = "dnil" then .found ⟨[("a", "b")], none⟩ else .notFound
  podsBySelector := fun _ => some []

/-- C10 witness: resolving the replica-less deployment panics. -/
theorem nil_replicas_witness :
    resolveDeployments envC10 ("dnil" :: []) = .error .nilPanic ∧
      getPods envC10 [] ("dnil" :: []) = .error .nilPanic :=
  nil_replicas_panics envC10 "dnil" [] ⟨[("a", "b")], none⟩ [] (by decide) rfl
    (by decide)

end Terminator
